import Mathlib

/-!
Shallow embedding of the tool-call validation and execution gateway of the
llm_speak backend, together with the audit layer and the conversation
orchestrator error handling.

Sources embedded:
- `app/core/security.py` : `ToolName`, the per-tool pydantic argument
  schemas, `NO_ARG_TOOLS`, `validate_tool_call`.
- `app/core/logging.py` : `ToolExecutionAudit.log_tool_call`,
  `log_tool_result`, `log_tool_rejection`, `log_security_event`, and the
  `settings.log_tool_execution` toggle that gates call/result logging.
- `app/tools/tool_registry.py` : `AVAILABLE_TOOLS`, `execute_tool`.
- `app/services/chat_service.py` : `process_message` transport-failure
  classification and response assembly.

Modelling conventions: JSON argument values are `Value` (strings, ints, and
an opaque `other` for anything else); a Python dict of arguments is an
association list; a tool implementation is a collaborator
`String → ArgMap → Except String Value`, where `Except.error` models a
raised exception.  Wall-clock times are dropped.  Pydantic detail that no
claim touches is abstracted: the text appended after the colon in the
"Invalid arguments" message, and lax coercion of numeric strings to int
fields.  Python regex `\s` on str patterns is modelled by the full CPython
whitespace predicate (the set matched by `str.isspace()`).
-/

set_option maxRecDepth 20000

namespace LlmSpeak

/-- JSON-ish argument values handed to tools. -/
inductive Value where
  | str (s : String)
  | int (n : Int)
  | other
deriving DecidableEq, Repr

/-- A Python keyword-argument dict, as an association list. -/
abbrev ArgMap := List (String × Value)

/-- Python `pat in s` substring containment on strings. -/
def strContainsSub (s pat : String) : Bool :=
  decide (pat.data <:+: s.data)

/-- Condition of the pydantic URL validators in `security.py`:
`"://" in v or v.startswith("http")`. -/
def hasURL (v : String) : Bool :=
  strContainsSub v "://" || "http".data.isPrefixOf v.data

/-- Python regex `\s` on str patterns: the characters for which CPython's
`str.isspace()` holds — ASCII whitespace, the file/group/record/unit
separators, NEL, NBSP, and the Unicode space/separator characters. -/
def isPySpace (c : Char) : Bool :=
  c = ' ' || c = '\t' || c = '\n' || c = '\x0b' || c = '\x0c' || c = '\r' ||
  c = '\x1c' || c = '\x1d' || c = '\x1e' || c = '\x1f' ||
  c = '\x85' || c = '\xa0' || c = '\u1680' ||
  ('\u2000' ≤ c && c ≤ '\u200a') ||
  c = '\u2028' || c = '\u2029' || c = '\u202f' || c = '\u205f' || c = '\u3000'

/-- One character of the class `[a-zA-Z\s\-'\.]` used by the city
validators in `security.py`. -/
def cityChar (c : Char) : Bool :=
  c.isAlpha || isPySpace c || c = '-' || c = '\x27' || c = '.'

/-- Python `re.match(r"^[a-zA-Z\s\-'\.]+$", v)` succeeds exactly when `v` is
nonempty and every character is in the class (`String.length` ≥ 1 is imposed
separately by the pydantic `min_length=1`; the regex `+` needs nonemptiness,
which is subsumed by that bound wherever the checkers are used). -/
def cityPattern (v : String) : Bool :=
  v.data.all cityChar

/-- The values of the `ToolName` enum in `security.py`: the whitelist. -/
def toolNames : List String :=
  ["play_song", "pause_playback", "resume_playback", "next_track",
   "previous_track", "get_current_track", "check_weather", "get_forecast",
   "search_wiki", "get_wiki_summary"]

/-- The `NO_ARG_TOOLS` set in `security.py`. -/
def noArgTools : List String :=
  ["pause_playback", "resume_playback", "next_track", "previous_track",
   "get_current_track"]

/-- `PlaySongArgs`: `song: str` with `min_length=1, max_length=500` and the
no-URL validator.  Extra keys are ignored (pydantic default). -/
def playSongCheck (args : ArgMap) : Bool :=
  match args.lookup "song" with
  | some (.str v) => 1 ≤ v.length && v.length ≤ 500 && !hasURL v
  | _ => false

/-- `CheckWeatherArgs`: `city: str` with `min_length=1, max_length=100` and
the restricted-character-class validator. -/
def checkWeatherCheck (args : ArgMap) : Bool :=
  match args.lookup "city" with
  | some (.str v) => 1 ≤ v.length && v.length ≤ 100 && cityPattern v
  | _ => false

/-- `GetForecastArgs`: `city` as in `CheckWeatherArgs`, plus optional
`days: int` with default 5 and bounds `ge=1, le=14`. -/
def getForecastCheck (args : ArgMap) : Bool :=
  match args.lookup "city" with
  | some (.str v) =>
      (1 ≤ v.length && v.length ≤ 100 && cityPattern v) &&
      (match args.lookup "days" with
       | none => true
       | some (.int n) => 1 ≤ n && n ≤ 14
       | some _ => false)
  | _ => false

/-- `SearchWikiArgs`: `query: str` with `min_length=1, max_length=500` and
the no-URL validator, plus optional `sentences: int` with bounds 1..10. -/
def searchWikiCheck (args : ArgMap) : Bool :=
  match args.lookup "query" with
  | some (.str v) =>
      (1 ≤ v.length && v.length ≤ 500 && !hasURL v) &&
      (match args.lookup "sentences" with
       | none => true
       | some (.int n) => 1 ≤ n && n ≤ 10
       | some _ => false)
  | _ => false

/-- `GetWikiSummaryArgs`: `page_title: str` with `min_length=1,
max_length=500` and the no-URL validator. -/
def getWikiSummaryCheck (args : ArgMap) : Bool :=
  match args.lookup "page_title" with
  | some (.str v) => 1 ≤ v.length && v.length ≤ 500 && !hasURL v
  | _ => false

/-- The `TOOL_SCHEMAS` map of `security.py`. -/
def toolSchema (name : String) : Option (ArgMap → Bool) :=
  if name = "play_song" then some playSongCheck
  else if name = "check_weather" then some checkWeatherCheck
  else if name = "get_forecast" then some getForecastCheck
  else if name = "search_wiki" then some searchWikiCheck
  else if name = "get_wiki_summary" then some getWikiSummaryCheck
  else none

/-- The field names each schema inspects (required and optional). -/
def schemaKeys (name : String) : List String :=
  if name = "play_song" then ["song"]
  else if name = "check_weather" then ["city"]
  else if name = "get_forecast" then ["city", "days"]
  else if name = "search_wiki" then ["query", "sentences"]
  else if name = "get_wiki_summary" then ["page_title"]
  else []

/-- Rendering of `[t.value for t in ToolName]` inside the Python f-string of
the whitelist rejection message. -/
def availableListStr : String :=
  "[\x27play_song\x27, \x27pause_playback\x27, \x27resume_playback\x27, " ++
  "\x27next_track\x27, \x27previous_track\x27, \x27get_current_track\x27, " ++
  "\x27check_weather\x27, \x27get_forecast\x27, \x27search_wiki\x27, " ++
  "\x27get_wiki_summary\x27]"

/-- Rejection message for a tool name outside the whitelist. -/
def unknownToolMsg (name : String) : String :=
  "Tool \x27" ++ name ++ "\x27 not in whitelist. Available: " ++ availableListStr

/-- Rejection message for arguments passed to a no-argument tool. -/
def noArgMsg (name : String) : String :=
  "Tool \x27" ++ name ++ "\x27 does not accept arguments"

/-- Rejection message for schema-invalid arguments (the pydantic error text
after the colon is abstracted away; no claim inspects it). -/
def invalidArgsMsg (name : String) : String :=
  "Invalid arguments for \x27" ++ name ++ "\x27"

/-- `validate_tool_call` from `security.py`: whitelist check, then the
no-argument-tool check, then schema validation.  Returns
`(is_valid, error_message)`. -/
def validate_tool_call (tool_name : String) (tool_args : ArgMap) : Bool × String :=
  if toolNames.contains tool_name then
    if noArgTools.contains tool_name then
      if tool_args.isEmpty then (true, "")
      else (false, noArgMsg tool_name)
    else
      match toolSchema tool_name with
      | some check =>
          if check tool_args then (true, "") else (false, invalidArgsMsg tool_name)
      | none => (false, "No schema defined for tool \x27" ++ tool_name ++ "\x27")
  else
    (false, unknownToolMsg tool_name)

/-- One emission made by `execute_tool` into the logging layer: either a call
to `log_security_event` or one of the three `ToolExecutionAudit` writers. -/
inductive AuditAction where
  | securityEvent (eventType description severity : String)
  | toolCall (tool : String) (args : ArgMap)
  | toolResult (tool : String) (success : Bool) (error : Option String)
  | toolRejection (tool : String) (reason : String) (args : ArgMap)
deriving DecidableEq, Repr

/-- Whether `logging.py` actually writes a record for the action, given the
`settings.log_tool_execution` toggle: `log_tool_call` and `log_tool_result`
return early when the toggle is off, while `log_tool_rejection` and
`log_security_event` write unconditionally. -/
def actionWritten (logToolExecution : Bool) : AuditAction → Bool
  | .toolCall _ _ => logToolExecution
  | .toolResult _ _ _ => logToolExecution
  | .toolRejection _ _ _ => true
  | .securityEvent _ _ _ => true

/-- The records actually written to the logs by a sequence of emissions,
under a given `log_tool_execution` toggle. -/
def writtenRecords (logToolExecution : Bool) (trace : List AuditAction) :
    List AuditAction :=
  trace.filter (actionWritten logToolExecution)

/-- Structured audit entries (as opposed to the parallel security-event
stream): the rejection and result events record an outcome of a call. -/
def isOutcomeRecord : AuditAction → Bool
  | .toolResult _ _ _ => true
  | .toolRejection _ _ _ => true
  | _ => false

/-- The result dict returned by `execute_tool`; absent dict keys are `none`
(the Python dict literals on the different branches carry different keys). -/
structure ToolExecutionResult where
  success : Bool
  tool : Option String := none
  error : Option String := none
  result : Option Value := none
  available_tools : Option (List String) := none
deriving DecidableEq, Repr

/-- The key set of the `AVAILABLE_TOOLS` dispatch table in
`tool_registry.py`, in source order. -/
def availableToolNames : List String :=
  ["play_song", "pause_playback", "resume_playback", "next_track",
   "previous_track", "get_current_track", "check_weather", "get_forecast",
   "search_wiki", "get_wiki_summary"]

/-- A tool-implementation collaborator: given a tool name and the keyword
arguments, either return a result value or raise (`Except.error`). -/
abbrev ToolImpls := String → ArgMap → Except String Value

/-- Everything observable about one `execute_tool` invocation: the returned
dict, the emissions into the logging layer in order, and the implementation
invocations performed (name with the keyword arguments passed). -/
structure GatewayOutput where
  result : ToolExecutionResult
  trace : List AuditAction
  invoked : List (String × ArgMap)
deriving Repr

/-- `execute_tool` from `tool_registry.py`.  Steps, as in the source:
validate, on rejection log a WARNING security event plus a rejection audit
entry and return the error dict; otherwise log the call attempt, defensively
check the dispatch table, invoke the implementation (with no arguments for a
no-argument tool, else with the full argument map), and log either a success
result entry or an ERROR security event plus a failure result entry.  Any
exception from the implementation is caught and becomes the structured
failure dict. -/
def execute_tool (impls : ToolImpls) (tool_name : String)
    (tool_args : ArgMap) : GatewayOutput :=
  let v := validate_tool_call tool_name tool_args
  if !v.1 then
    { result := { success := false, error := some v.2, tool := some tool_name },
      trace := [.securityEvent "tool_rejected"
                  ("Tool call rejected: " ++ v.2) "WARNING",
                .toolRejection tool_name v.2 tool_args],
      invoked := [] }
  else if !availableToolNames.contains tool_name then
    { result := { success := false,
                  error := some ("Unknown tool: " ++ tool_name),
                  available_tools := some availableToolNames },
      trace := [.toolCall tool_name tool_args],
      invoked := [] }
  else
    let callArgs := if noArgTools.contains tool_name then [] else tool_args
    match impls tool_name callArgs with
    | .ok r =>
        { result := { success := true, tool := some tool_name, result := some r },
          trace := [.toolCall tool_name tool_args,
                    .toolResult tool_name true none],
          invoked := [(tool_name, callArgs)] }
    | .error e =>
        { result := { success := false, tool := some tool_name,
                      error := some ("Tool execution failed: " ++ e) },
          trace := [.toolCall tool_name tool_args,
                    .securityEvent "tool_execution_error"
                      ("Tool \x27" ++ tool_name ++ "\x27 failed: " ++ e) "ERROR",
                    .toolResult tool_name false (some e)],
          invoked := [(tool_name, callArgs)] }

/-- Outcome of the HTTP exchange with the model collaborator in
`process_message` (`chat_service.py`): the three `except` branches around
`requests.post`, a parsed body with no "message" key, or a message with
content and requested tool calls. -/
inductive OllamaOutcome where
  | connectionError
  | timeout
  | otherError (msg : String)
  | missingMessage
  | message (content : String) (toolCalls : List (String × ArgMap))

/-- The dict returned by `process_message`; absent keys are `none`. -/
structure ChatResponse where
  success : Bool
  error : Option String := none
  response : Option String := none
  tool_results : Option (List (String × ToolExecutionResult)) := none
  available_tools : Option (List String) := none
deriving DecidableEq, Repr

/-- Error message of the `requests.exceptions.ConnectionError` branch. -/
def connectionErrorMsg : String :=
  "Cannot connect to Ollama service. Make sure Ollama is running on localhost:11434"

/-- Error message of the `requests.exceptions.Timeout` branch. -/
def timeoutErrorMsg : String := "Ollama service timeout"

/-- Error message of the catch-all `except Exception` branch. -/
def otherErrorMsg (e : String) : String := "Ollama service error: " ++ e

/-- `process_message` from `chat_service.py`, after the transport exchange is
abstracted into an `OllamaOutcome`: classify transport failures into distinct
structured errors, otherwise run each requested tool call through
`execute_tool` in order and assemble the reply. -/
def process_message (impls : ToolImpls) (outcome : OllamaOutcome) : ChatResponse :=
  match outcome with
  | .connectionError => { success := false, error := some connectionErrorMsg }
  | .timeout => { success := false, error := some timeoutErrorMsg }
  | .otherError e => { success := false, error := some (otherErrorMsg e) }
  | .missingMessage => { success := false, error := some "Invalid response from Ollama" }
  | .message content toolCalls =>
      let results := toolCalls.map
        (fun c => (c.1, (execute_tool impls c.1 c.2).result))
      { success := true, response := some content,
        tool_results := if results.isEmpty then none else some results,
        available_tools := some availableToolNames }

/-- A trivial collaborator table used by concrete witnesses. -/
def trivialImpls : ToolImpls := fun _ _ => .ok .other

/-- A collaborator table whose every call raises, used by witnesses for the
execution-failure paths. -/
def raisingImpls : ToolImpls := fun _ _ => .error "boom"

/-! Helper lemmas shared by the claim proofs. -/

lemma availableToolNames_eq : availableToolNames = toolNames := rfl

lemma accepted_in_whitelist (name : String) (args : ArgMap)
    (h : (validate_tool_call name args).1 = true) :
    toolNames.contains name = true := by
  cases hc : toolNames.contains name with
  | false =>
      have hm : name ∉ toolNames := by simpa using hc
      simp [validate_tool_call, hm] at h
  | true => rfl

lemma execute_tool_of_rejected (impls : ToolImpls) (name : String) (args : ArgMap)
    (h : (validate_tool_call name args).1 = false) :
    execute_tool impls name args =
      { result := { success := false,
                    error := some (validate_tool_call name args).2,
                    tool := some name },
        trace := [.securityEvent "tool_rejected"
                    ("Tool call rejected: " ++ (validate_tool_call name args).2)
                    "WARNING",
                  .toolRejection name (validate_tool_call name args).2 args],
        invoked := [] } := by
  simp [execute_tool, h]

lemma execute_tool_of_accepted (impls : ToolImpls) (name : String) (args : ArgMap)
    (h : (validate_tool_call name args).1 = true) :
    execute_tool impls name args =
      match impls name (if noArgTools.contains name then [] else args) with
      | .ok r =>
          { result := { success := true, tool := some name, result := some r },
            trace := [.toolCall name args, .toolResult name true none],
            invoked := [(name, if noArgTools.contains name then [] else args)] }
      | .error e =>
          { result := { success := false, tool := some name,
                        error := some ("Tool execution failed: " ++ e) },
            trace := [.toolCall name args,
                      .securityEvent "tool_execution_error"
                        ("Tool \x27" ++ name ++ "\x27 failed: " ++ e) "ERROR",
                      .toolResult name false (some e)],
            invoked := [(name, if noArgTools.contains name then [] else args)] } := by
  have hc : availableToolNames.contains name = true := by
    rw [availableToolNames_eq]; exact accepted_in_whitelist name args h
  have hm : name ∈ availableToolNames := by simpa using hc
  simp [execute_tool, h, hm]

/-- A claim theorem for the whitelist property of `validate_tool_call` and
`execute_tool`. -/
theorem toolWhitelistRejectsUnknown (name : String) (args : ArgMap)
    (impls : ToolImpls) (h : toolNames.contains name = false) :
    validate_tool_call name args = (false, unknownToolMsg name) ∧
    (∀ t ∈ toolNames, t.data <:+: (unknownToolMsg name).data) ∧
    (execute_tool impls name args).result.success = false ∧
    (execute_tool impls name args).invoked = [] := by
  have hval : validate_tool_call name args = (false, unknownToolMsg name) := by
    have hm : name ∉ toolNames := by simpa using h
    simp [validate_tool_call, hm]
  refine ⟨hval, ?_, ?_, ?_⟩
  · intro t ht
    have h1 : t.data <:+: availableListStr.data := by
      fin_cases ht <;> decide
    have h2 : availableListStr.data <:+ (unknownToolMsg name).data := by
      have : (unknownToolMsg name).data =
          ("Tool \x27" ++ name ++ "\x27 not in whitelist. Available: ").data ++
          availableListStr.data := by
        rw [unknownToolMsg, String.data_append]
      rw [this]
      exact List.suffix_append _ _
    exact h1.trans h2.isInfix
  · rw [execute_tool_of_rejected impls name args (by rw [hval])]
  · rw [execute_tool_of_rejected impls name args (by rw [hval])]

/-- Witness for `toolWhitelistRejectsUnknown` at a concrete unknown tool. -/
theorem toolWhitelistRejectsUnknownWitness :
    validate_tool_call "launch_missiles" [("x", Value.int 1)] =
      (false, unknownToolMsg "launch_missiles") ∧
    (execute_tool trivialImpls "launch_missiles" [("x", Value.int 1)]).invoked = [] := by
  have h := toolWhitelistRejectsUnknown "launch_missiles" [("x", Value.int 1)]
    trivialImpls (by decide)
  exact ⟨h.1, h.2.2.2⟩

/-- A claim theorem for the no-argument tool policy of `validate_tool_call`. -/
theorem noArgToolsArgumentPolicy (name : String) (args : ArgMap)
    (h : noArgTools.contains name = true) :
    (args ≠ [] → validate_tool_call name args = (false, noArgMsg name)) ∧
    "does not accept arguments".data <:+: (noArgMsg name).data ∧
    validate_tool_call name [] = (true, "") := by
  have hmem : name = "pause_playback" ∨ name = "resume_playback" ∨
      name = "next_track" ∨ name = "previous_track" ∨
      name = "get_current_track" := by
    simpa [noArgTools] using h
  have hsuffix : "does not accept arguments".data <:+: (noArgMsg name).data := by
    have hd : (noArgMsg name).data =
        ("Tool \x27" ++ name).data ++ "\x27 does not accept arguments".data := by
      rw [noArgMsg, String.data_append]
    rw [hd]
    have h1 : "does not accept arguments".data <:+:
        "\x27 does not accept arguments".data := by decide
    exact h1.trans (List.suffix_append _ _).isInfix
  refine ⟨?_, hsuffix, ?_⟩
  · intro hne
    cases args with
    | nil => exact absurd rfl hne
    | cons p t =>
        rcases hmem with h' | h' | h' | h' | h' <;> subst h' <;> rfl
  · rcases hmem with h' | h' | h' | h' | h' <;> subst h' <;> rfl

/-- Witness for `noArgToolsArgumentPolicy` at a concrete no-argument tool. -/
theorem noArgToolsArgumentPolicyWitness :
    validate_tool_call "pause_playback" [("volume", Value.int 3)] =
      (false, noArgMsg "pause_playback") ∧
    validate_tool_call "pause_playback" [] = (true, "") := by
  have h := noArgToolsArgumentPolicy "pause_playback" [("volume", Value.int 3)]
    (by decide)
  exact ⟨h.1 (by decide), h.2.2⟩

lemma validate_play_song (args : ArgMap) :
    validate_tool_call "play_song" args =
      (if playSongCheck args then (true, "")
       else (false, invalidArgsMsg "play_song")) := rfl

lemma validate_check_weather (args : ArgMap) :
    validate_tool_call "check_weather" args =
      (if checkWeatherCheck args then (true, "")
       else (false, invalidArgsMsg "check_weather")) := rfl

lemma validate_get_forecast (args : ArgMap) :
    validate_tool_call "get_forecast" args =
      (if getForecastCheck args then (true, "")
       else (false, invalidArgsMsg "get_forecast")) := rfl

lemma validate_search_wiki (args : ArgMap) :
    validate_tool_call "search_wiki" args =
      (if searchWikiCheck args then (true, "")
       else (false, invalidArgsMsg "search_wiki")) := rfl

lemma validate_get_wiki_summary (args : ArgMap) :
    validate_tool_call "get_wiki_summary" args =
      (if getWikiSummaryCheck args then (true, "")
       else (false, invalidArgsMsg "get_wiki_summary")) := rfl

/-- A claim theorem for the URL-forbidden free-text fields: whenever the
value of `play_song.song`, `search_wiki.query` or `get_wiki_summary.page_title`
contains "://" or starts with "http", validation rejects and the gateway
invokes no implementation. -/
theorem urlForbiddenFieldsReject (v : String) (impls : ToolImpls)
    (hv : hasURL v = true) :
    (∀ args : ArgMap, args.lookup "song" = some (.str v) →
       validate_tool_call "play_song" args = (false, invalidArgsMsg "play_song") ∧
       (execute_tool impls "play_song" args).invoked = []) ∧
    (∀ args : ArgMap, args.lookup "query" = some (.str v) →
       validate_tool_call "search_wiki" args = (false, invalidArgsMsg "search_wiki") ∧
       (execute_tool impls "search_wiki" args).invoked = []) ∧
    (∀ args : ArgMap, args.lookup "page_title" = some (.str v) →
       validate_tool_call "get_wiki_summary" args =
         (false, invalidArgsMsg "get_wiki_summary") ∧
       (execute_tool impls "get_wiki_summary" args).invoked = []) := by
  refine ⟨?_, ?_, ?_⟩ <;> intro args hl
  · have hc : playSongCheck args = false := by
      simp [playSongCheck, hl, hv]
    have hval : validate_tool_call "play_song" args =
        (false, invalidArgsMsg "play_song") := by
      rw [validate_play_song args, hc]; simp
    exact ⟨hval, by rw [execute_tool_of_rejected impls _ args (by rw [hval])]⟩
  · have hc : searchWikiCheck args = false := by
      simp [searchWikiCheck, hl, hv]
    have hval : validate_tool_call "search_wiki" args =
        (false, invalidArgsMsg "search_wiki") := by
      rw [validate_search_wiki args, hc]; simp
    exact ⟨hval, by rw [execute_tool_of_rejected impls _ args (by rw [hval])]⟩
  · have hc : getWikiSummaryCheck args = false := by
      simp [getWikiSummaryCheck, hl, hv]
    have hval : validate_tool_call "get_wiki_summary" args =
        (false, invalidArgsMsg "get_wiki_summary") := by
      rw [validate_get_wiki_summary args, hc]; simp
    exact ⟨hval, by rw [execute_tool_of_rejected impls _ args (by rw [hval])]⟩

/-- Witness for `urlForbiddenFieldsReject` at `"http://evil.com"`. -/
theorem urlForbiddenFieldsRejectWitness :
    validate_tool_call "play_song" [("song", Value.str "http://evil.com")] =
      (false, invalidArgsMsg "play_song") ∧
    (execute_tool trivialImpls "play_song"
      [("song", Value.str "http://evil.com")]).invoked = [] := by
  exact (urlForbiddenFieldsReject "http://evil.com" trivialImpls (by decide)).1
    [("song", Value.str "http://evil.com")] rfl

/-- A claim theorem for the city-name character class of `check_weather` and
`get_forecast`: a city containing a character outside the class is rejected,
and a city inside the class within the length bounds is accepted. -/
theorem cityCharacterClassValidation (v : String) :
    (∀ args : ArgMap, args.lookup "city" = some (.str v) →
       v.data.all cityChar = false →
       (validate_tool_call "check_weather" args).1 = false ∧
       (validate_tool_call "get_forecast" args).1 = false) ∧
    (v.data.all cityChar = true → 1 ≤ v.length → v.length ≤ 100 →
       validate_tool_call "check_weather" [("city", .str v)] = (true, "") ∧
       validate_tool_call "get_forecast" [("city", .str v)] = (true, "")) := by
  constructor
  · intro args hl hbad
    have h1 : checkWeatherCheck args = false := by
      simp [checkWeatherCheck, hl, cityPattern, hbad]
    have h2 : getForecastCheck args = false := by
      simp [getForecastCheck, hl, cityPattern, hbad]
    constructor
    · rw [validate_check_weather args, h1]; simp
    · rw [validate_get_forecast args, h2]; simp
  · intro hall h1 h100
    have hlk : (([("city", Value.str v)] : ArgMap).lookup "city") =
        some (.str v) := rfl
    have hdays : (([("city", Value.str v)] : ArgMap).lookup "days") = none := rfl
    have hc : checkWeatherCheck [("city", .str v)] = true := by
      simp [checkWeatherCheck, hlk, cityPattern, hall, h1, h100]
    have hf : getForecastCheck [("city", .str v)] = true := by
      simp [getForecastCheck, hlk, hdays, cityPattern, hall, h1, h100]
    constructor
    · rw [validate_check_weather, hc]; simp
    · rw [validate_get_forecast, hf]; simp

/-- Witness for `cityCharacterClassValidation`: "New York<script>" is
rejected and "New York" is accepted, for both weather tools. -/
theorem cityCharacterClassValidationWitness :
    (validate_tool_call "check_weather"
       [("city", Value.str "New York<script>")]).1 = false ∧
    (validate_tool_call "get_forecast"
       [("city", Value.str "New York<script>")]).1 = false ∧
    validate_tool_call "check_weather" [("city", Value.str "New York")] =
      (true, "") ∧
    validate_tool_call "get_forecast" [("city", Value.str "New York")] =
      (true, "") := by
  have hrej := (cityCharacterClassValidation "New York<script>").1
    [("city", Value.str "New York<script>")] rfl (by decide)
  have hacc := (cityCharacterClassValidation "New York").2
    (by decide) (by decide) (by decide)
  exact ⟨hrej.1, hrej.2, hacc.1, hacc.2⟩

/-- Counterexample to the claim that every `execute_tool` invocation yields
exactly one written audit record for its outcome: with the
`log_tool_execution` toggle off, an accepted call to `pause_playback` writes
no result record at all (`log_tool_result` returns early). -/
theorem auditOutcomeRecordCounterexample :
    (validate_tool_call "pause_playback" []).1 = true ∧
    (writtenRecords false
        (execute_tool trivialImpls "pause_playback" []).trace).countP
      (fun a => isOutcomeRecord a) = 0 := by
  exact ⟨rfl, rfl⟩

/-- A claim theorem, amended: with the `log_tool_execution` toggle enabled,
every `execute_tool` invocation writes exactly one outcome audit record
(a rejection record or a result record); rejected calls write exactly one
outcome record under either toggle value. -/
theorem auditOutcomeRecordAmended (impls : ToolImpls) (name : String)
    (args : ArgMap) (toggle : Bool) :
    (writtenRecords true (execute_tool impls name args).trace).countP
      (fun a => isOutcomeRecord a) = 1 ∧
    ((validate_tool_call name args).1 = false →
      (writtenRecords toggle (execute_tool impls name args).trace).countP
        (fun a => isOutcomeRecord a) = 1) := by
  constructor
  · cases hv : (validate_tool_call name args).1 with
    | false =>
        rw [execute_tool_of_rejected impls name args hv]
        rfl
    | true =>
        rw [execute_tool_of_accepted impls name args hv]
        cases impls name (if noArgTools.contains name then [] else args) with
        | ok r => rfl
        | error e => rfl
  · intro hv
    rw [execute_tool_of_rejected impls name args hv]
    cases toggle <;> rfl

/-- Witness for `auditOutcomeRecordAmended`: a rejected call writes exactly
one outcome record even with auditing disabled, and an accepted call writes
exactly one with auditing enabled. -/
theorem auditOutcomeRecordAmendedWitness :
    (writtenRecords true
        (execute_tool trivialImpls "pause_playback" []).trace).countP
      (fun a => isOutcomeRecord a) = 1 ∧
    (writtenRecords false
        (execute_tool trivialImpls "unknown_tool" []).trace).countP
      (fun a => isOutcomeRecord a) = 1 := by
  exact ⟨(auditOutcomeRecordAmended trivialImpls "pause_playback" [] true).1,
    (auditOutcomeRecordAmended trivialImpls "unknown_tool" [] false).2 rfl⟩

/-- A claim theorem for toggle-independence of rejection auditing: on every
validation failure, the rejection audit record and the WARNING security
event are written under either value of the `log_tool_execution` toggle. -/
theorem rejectionAuditIndependentOfToggle (impls : ToolImpls) (name : String)
    (args : ArgMap) (toggle : Bool)
    (h : (validate_tool_call name args).1 = false) :
    AuditAction.toolRejection name (validate_tool_call name args).2 args ∈
      writtenRecords toggle (execute_tool impls name args).trace ∧
    AuditAction.securityEvent "tool_rejected"
        ("Tool call rejected: " ++ (validate_tool_call name args).2) "WARNING" ∈
      writtenRecords toggle (execute_tool impls name args).trace := by
  rw [execute_tool_of_rejected impls name args h]
  cases toggle <;> simp [writtenRecords, actionWritten]

/-- Witness for `rejectionAuditIndependentOfToggle` at a rejected call with
auditing disabled. -/
theorem rejectionAuditIndependentOfToggleWitness :
    AuditAction.toolRejection "pause_playback"
        (validate_tool_call "pause_playback" [("x", Value.int 1)]).2
        [("x", Value.int 1)] ∈
      writtenRecords false
        (execute_tool trivialImpls "pause_playback" [("x", Value.int 1)]).trace := by
  exact (rejectionAuditIndependentOfToggle trivialImpls "pause_playback"
    [("x", Value.int 1)] false rfl).1

/-- Counterexample to the claim that an execution failure always emits a
failed result audit entry: with the `log_tool_execution` toggle off, the
ERROR security event is written but the failed result entry is not. -/
theorem execFailureAuditCounterexample :
    (validate_tool_call "pause_playback" []).1 = true ∧
    (execute_tool raisingImpls "pause_playback" []).result.success = false ∧
    AuditAction.toolResult "pause_playback" false (some "boom") ∈
      (execute_tool raisingImpls "pause_playback" []).trace ∧
    AuditAction.toolResult "pause_playback" false (some "boom") ∉
      writtenRecords false
        (execute_tool raisingImpls "pause_playback" []).trace := by
  refine ⟨rfl, rfl, by decide, by decide⟩

/-- A claim theorem, amended: any exception of the implementation is caught
inside `execute_tool`, which returns the structured failure dict and always
writes an ERROR security event; the failed result audit entry is written
whenever the `log_tool_execution` toggle is enabled. -/
theorem execFailureHandlingAmended (impls : ToolImpls) (name : String)
    (args : ArgMap) (e : String) (toggle : Bool)
    (hv : (validate_tool_call name args).1 = true)
    (he : impls name (if noArgTools.contains name then [] else args) =
      .error e) :
    (execute_tool impls name args).result =
      { success := false, tool := some name,
        error := some ("Tool execution failed: " ++ e) } ∧
    AuditAction.securityEvent "tool_execution_error"
        ("Tool \x27" ++ name ++ "\x27 failed: " ++ e) "ERROR" ∈
      writtenRecords toggle (execute_tool impls name args).trace ∧
    (toggle = true →
      AuditAction.toolResult name false (some e) ∈
        writtenRecords toggle (execute_tool impls name args).trace) := by
  rw [execute_tool_of_accepted impls name args hv, he]
  refine ⟨rfl, ?_, ?_⟩
  · cases toggle <;> simp [writtenRecords, actionWritten]
  · intro ht; subst ht; simp [writtenRecords, actionWritten]

/-- Witness for `execFailureHandlingAmended` at a raising implementation. -/
theorem execFailureHandlingAmendedWitness :
    (execute_tool raisingImpls "pause_playback" []).result =
      { success := false, tool := some "pause_playback",
        error := some ("Tool execution failed: " ++ "boom") } ∧
    AuditAction.toolResult "pause_playback" false (some "boom") ∈
      writtenRecords true
        (execute_tool raisingImpls "pause_playback" []).trace := by
  have h := execFailureHandlingAmended raisingImpls "pause_playback" []
    "boom" true rfl rfl
  exact ⟨h.1, h.2.2 rfl⟩

lemma timeout_ne_other (e : String) : timeoutErrorMsg ≠ otherErrorMsg e := by
  intro h
  have hd := congrArg String.data h
  rw [otherErrorMsg, String.data_append] at hd
  have hlen := congrArg List.length hd
  rw [List.length_append] at hlen
  have h1 : (timeoutErrorMsg.data).length = 22 := rfl
  have h2 : (("Ollama service error: " : String).data).length = 22 := rfl
  rw [h1, h2] at hlen
  have he : e.data.length = 0 := by omega
  rw [List.eq_nil_of_length_eq_zero he, List.append_nil] at hd
  exact absurd hd (by decide)

lemma connection_ne_other (e : String) : connectionErrorMsg ≠ otherErrorMsg e := by
  intro h
  have hd := congrArg String.data h
  rw [otherErrorMsg, String.data_append] at hd
  have h1 : connectionErrorMsg.data.head? = some 'C' := rfl
  rw [hd] at h1
  have h2 : ("Ollama service error: " : String).data =
      'O' :: ("llama service error: " : String).data := rfl
  rw [h2, List.cons_append, List.head?_cons] at h1
  exact absurd h1 (by decide)

/-- A claim theorem for the orchestrator's transport-failure handling:
each of the three failure kinds yields a structured `{success: false,
error}` value with its own cause-specific message, and the three messages
are pairwise distinct. -/
theorem transportFailureClassification (impls : ToolImpls) (e : String) :
    process_message impls .connectionError =
      { success := false, error := some connectionErrorMsg } ∧
    process_message impls .timeout =
      { success := false, error := some timeoutErrorMsg } ∧
    process_message impls (.otherError e) =
      { success := false, error := some (otherErrorMsg e) } ∧
    connectionErrorMsg ≠ timeoutErrorMsg ∧
    connectionErrorMsg ≠ otherErrorMsg e ∧
    timeoutErrorMsg ≠ otherErrorMsg e := by
  exact ⟨rfl, rfl, rfl, by decide, connection_ne_other e, timeout_ne_other e⟩

/-- Witness for `transportFailureClassification` at a concrete collaborator
error. -/
theorem transportFailureClassificationWitness :
    process_message trivialImpls .connectionError =
      { success := false, error := some connectionErrorMsg } ∧
    timeoutErrorMsg ≠ otherErrorMsg "oops" := by
  exact ⟨(transportFailureClassification trivialImpls "oops").1,
    (transportFailureClassification trivialImpls "oops").2.2.2.2.2⟩

/-- A claim theorem for Catalog/dispatch-table consistency: the whitelist
equals the dispatch-table key set, and every validated call finds an
implementation, so the defensive "Unknown tool" branch (the only branch
returning an `available_tools` key) is never taken and some implementation
is always invoked. -/
theorem catalogDispatchTableConsistency :
    toolNames = availableToolNames ∧
    ∀ (impls : ToolImpls) (name : String) (args : ArgMap),
      (validate_tool_call name args).1 = true →
      availableToolNames.contains name = true ∧
      (execute_tool impls name args).result.available_tools = none ∧
      (execute_tool impls name args).invoked ≠ [] := by
  refine ⟨rfl, ?_⟩
  intro impls name args hv
  have hc : availableToolNames.contains name = true := by
    rw [availableToolNames_eq]; exact accepted_in_whitelist name args hv
  rw [execute_tool_of_accepted impls name args hv]
  cases impls name (if noArgTools.contains name then [] else args) with
  | ok r => exact ⟨hc, rfl, by simp⟩
  | error e => exact ⟨hc, rfl, by simp⟩

/-- Witness for `catalogDispatchTableConsistency` at a validated call. -/
theorem catalogDispatchTableConsistencyWitness :
    availableToolNames.contains "check_weather" = true ∧
    (execute_tool trivialImpls "check_weather"
        [("city", Value.str "Boston")]).result.available_tools = none := by
  have h := catalogDispatchTableConsistency.2 trivialImpls "check_weather"
    [("city", Value.str "Boston")] (by decide)
  exact ⟨h.1, h.2.1⟩

lemma lookup_append_or (k : String) (l₁ l₂ : ArgMap) :
    (l₁ ++ l₂).lookup k = ((l₁.lookup k).or (l₂.lookup k)) := by
  induction l₁ with
  | nil => simp [List.lookup]
  | cons p t ih =>
      obtain ⟨a, b⟩ := p
      cases h : (k == a) with
      | true => simp [List.lookup, h]
      | false => simp [List.lookup, h, ih]

lemma lookup_none_of_no_key (k : String) (l : ArgMap)
    (h : ∀ p ∈ l, p.1 ≠ k) : l.lookup k = none := by
  induction l with
  | nil => rfl
  | cons p t ih =>
      obtain ⟨a, b⟩ := p
      cases hka : (k == a) with
      | true =>
          exact absurd ((by simpa using hka : k = a)).symm
            (h (a, b) (List.mem_cons_self _ _))
      | false =>
          simp only [List.lookup, hka]
          exact ih (fun q hq => h q (List.mem_cons_of_mem _ hq))

lemma lookup_preserved (k : String) (args extra : ArgMap)
    (h : ∀ p ∈ extra, p.1 ≠ k) :
    (args ++ extra).lookup k = args.lookup k := by
  rw [lookup_append_or, lookup_none_of_no_key k extra h]
  cases args.lookup k <;> rfl

lemma validate_arg_tool (tool : String) (args : ArgMap)
    (ht : toolNames.contains tool = true)
    (hna : noArgTools.contains tool = false) :
    ∃ ch, toolSchema tool = some ch ∧
      validate_tool_call tool args =
        (if ch args then (true, "") else (false, invalidArgsMsg tool)) := by
  have hmem : tool = "play_song" ∨ tool = "pause_playback" ∨
      tool = "resume_playback" ∨ tool = "next_track" ∨
      tool = "previous_track" ∨ tool = "get_current_track" ∨
      tool = "check_weather" ∨ tool = "get_forecast" ∨
      tool = "search_wiki" ∨ tool = "get_wiki_summary" := by
    simpa [toolNames] using ht
  rcases hmem with h' | h' | h' | h' | h' | h' | h' | h' | h' | h' <;>
    subst h' <;> first
      | exact absurd hna (by decide)
      | exact ⟨_, rfl, rfl⟩

lemma check_eq_of_lookup_eq (tool : String) (ch : ArgMap → Bool)
    (hts : toolSchema tool = some ch) (l₁ l₂ : ArgMap)
    (hl : ∀ k ∈ schemaKeys tool, l₁.lookup k = l₂.lookup k) :
    ch l₁ = ch l₂ := by
  unfold toolSchema at hts
  split at hts
  · next h =>
      subst h
      injection hts with hch; subst hch
      unfold playSongCheck
      rw [hl "song" (by decide)]
  · split at hts
    · next h =>
        subst h
        injection hts with hch; subst hch
        unfold checkWeatherCheck
        rw [hl "city" (by decide)]
    · split at hts
      · next h =>
          subst h
          injection hts with hch; subst hch
          unfold getForecastCheck
          rw [hl "city" (by decide), hl "days" (by decide)]
      · split at hts
        · next h =>
            subst h
            injection hts with hch; subst hch
            unfold searchWikiCheck
            rw [hl "query" (by decide), hl "sentences" (by decide)]
        · split at hts
          · next h =>
              subst h
              injection hts with hch; subst hch
              unfold getWikiSummaryCheck
              rw [hl "page_title" (by decide)]
          · exact absurd hts (by simp)

/-- A claim theorem for the extra-keys behaviour: for an argument-taking
tool, appending entries whose keys are unknown to the schema keeps the call
accepted, and the gateway invokes the implementation with the full original
map, extra keys included. -/
theorem extraKeysAccepted (impls : ToolImpls) (tool : String)
    (args extra : ArgMap)
    (ht : toolNames.contains tool = true)
    (hna : noArgTools.contains tool = false)
    (hv : (validate_tool_call tool args).1 = true)
    (hextra : ∀ p ∈ extra, (schemaKeys tool).contains p.1 = false) :
    (validate_tool_call tool (args ++ extra)).1 = true ∧
    (execute_tool impls tool (args ++ extra)).invoked =
      [(tool, args ++ extra)] := by
  obtain ⟨ch, hts, hveq⟩ := validate_arg_tool tool args ht hna
  obtain ⟨ch₂, hts₂, hveq₂⟩ := validate_arg_tool tool (args ++ extra) ht hna
  rw [hts] at hts₂
  injection hts₂ with hch; subst hch
  have hcheck : ch args = true := by
    cases hc : ch args with
    | true => rfl
    | false => rw [hveq, hc] at hv; simp at hv
  have hlk : ∀ k ∈ schemaKeys tool, (args ++ extra).lookup k = args.lookup k := by
    intro k hk
    refine lookup_preserved k args extra (fun p hp heq => ?_)
    have hc := hextra p hp
    rw [heq] at hc
    have : (schemaKeys tool).contains k = true := by simpa using hk
    rw [this] at hc
    exact absurd hc (by decide)
  have hcheck₂ : ch (args ++ extra) = true := by
    rw [check_eq_of_lookup_eq tool ch hts (args ++ extra) args hlk]
    exact hcheck
  have hv₂ : (validate_tool_call tool (args ++ extra)).1 = true := by
    rw [hveq₂, hcheck₂]; rfl
  refine ⟨hv₂, ?_⟩
  rw [execute_tool_of_accepted impls tool (args ++ extra) hv₂, hna]
  cases impls tool (if (false : Bool) then [] else args ++ extra) with
  | ok r => simp
  | error e => simp

/-- Witness for `extraKeysAccepted`: `check_weather` with an unknown extra
key `units` is accepted and the full map reaches the implementation. -/
theorem extraKeysAcceptedWitness :
    (validate_tool_call "check_weather"
        ([("city", Value.str "Boston")] ++ [("units", Value.str "metric")])).1 =
      true ∧
    (execute_tool trivialImpls "check_weather"
        ([("city", Value.str "Boston")] ++ [("units", Value.str "metric")])).invoked =
      [("check_weather",
        [("city", Value.str "Boston")] ++ [("units", Value.str "metric")])] := by
  exact extraKeysAccepted trivialImpls "check_weather"
    [("city", Value.str "Boston")] [("units", Value.str "metric")]
    (by decide) (by decide) (by decide) (by decide)

end LlmSpeak
